import Mathlib

/-!
# Transaction sequencing and construction core of the faucet

A shallow embedding of `internal/chain/transaction.go`.

* `uint64` values are natural numbers; wrap-around is written `% UINT64_MOD`.
* `*big.Int` values are integers (`Int`); a byte is a natural number below 256.
* The endpoint client (`bind.ContractTransactor`) is a record of responses.
  Every method is called at most once during one `Transfer`, so a response that
  depends only on the arguments loses no behaviour of a single call.
* Functions of go-ethereum that the file calls but does not define
  (`common.HexToAddress`, `types.SignTx`, `Transaction.Hash`) are the fields of `Lib`.
* Each operation returns, next to its Go results, the list of effects it performed,
  in program order (`Event`).  The list is ghost state: it never influences a result.
* `context.Context` arguments are dropped: a context only influences the
  responses of the endpoint, which are arbitrary here.
* The Go parameter `to` is written `to_`, because `to` is a reserved word.
* `transferTarget` and `transferBuilt` name two stages of `Transfer` for the proofs;
  `transfer_unfold` shows that `Transfer` is made of them.
-/

namespace Chain

/-! ## Data model -/

/-- Number of values of a Go `uint64`. -/
def UINT64_MOD : Nat := 2 ^ 64

/-- The Go type `common.Address`: an array of exactly 20 bytes. -/
structure Address where
  bytes : List Nat
  size_eq : bytes.length = 20
  deriving DecidableEq

/-- The Go type `common.Hash`, as its list of 32 bytes. -/
abbrev Hash := List Nat

/-- The zero value `common.Hash{}`. -/
def zeroHash : Hash := List.replicate 32 0

/-- The struct `types.LegacyTx` (signature values left out: they are unset before signing). -/
structure LegacyTx where
  Nonce : Nat
  GasPrice : Int
  Gas : Nat
  To : Option Address
  Value : Int
  Data : List Nat
  deriving DecidableEq

/-- The struct `types.DynamicFeeTx` (access list and signature values left out: never set here). -/
structure DynamicFeeTx where
  ChainID : Int
  Nonce : Nat
  GasTipCap : Int
  GasFeeCap : Int
  Gas : Nat
  To : Option Address
  Value : Int
  Data : List Nat
  deriving DecidableEq

/-- What `types.NewTx` wraps: one of the two transaction bodies used by the builder. -/
inductive Transaction where
  | legacy (inner : LegacyTx)
  | dynamicFee (inner : DynamicFeeTx)
  deriving DecidableEq

namespace Transaction

/-- Accessor `tx.Nonce()`. -/
def Nonce : Transaction → Nat
  | legacy t => t.Nonce
  | dynamicFee t => t.Nonce

/-- Accessor `tx.Gas()`. -/
def Gas : Transaction → Nat
  | legacy t => t.Gas
  | dynamicFee t => t.Gas

/-- Accessor `tx.To()`. -/
def To : Transaction → Option Address
  | legacy t => t.To
  | dynamicFee t => t.To

/-- Accessor `tx.Value()`. -/
def Value : Transaction → Int
  | legacy t => t.Value
  | dynamicFee t => t.Value

/-- Accessor `tx.Data()`. -/
def Data : Transaction → List Nat
  | legacy t => t.Data
  | dynamicFee t => t.Data

/-- Accessor `tx.GasPrice()`: the gas price of a legacy body, the fee cap of a dynamic-fee body. -/
def GasPrice : Transaction → Int
  | legacy t => t.GasPrice
  | dynamicFee t => t.GasFeeCap

end Transaction

/-- A transaction together with the signature values `V`, `R`, `S` set by signing. -/
structure SignedTx where
  tx : Transaction
  V : Int
  R : Int
  S : Int
  deriving DecidableEq

/-- The part of `types.Signer` the builder reads: the chain identifier. -/
structure Signer where
  chainID : Int
  deriving DecidableEq

/-- Method `signer.ChainID()`. -/
def Signer.ChainID (s : Signer) : Int := s.chainID

/-- The type `ecdsa.PrivateKey`, as its secret scalar. -/
structure PrivateKey where
  D : Nat
  deriving DecidableEq

/-- The part of `types.Header` the builder reads; `BaseFee` is a pointer and may be nil. -/
structure Header where
  BaseFee : Option Int
  deriving DecidableEq

/-- Result of a Go call of type `(T, error)` that may also panic. -/
inductive Res (α : Type) where
  | ok (v : α)
  | err (e : String)
  | panic
  deriving DecidableEq

/-- The methods of `bind.ContractTransactor` used by the builder, as responses of the endpoint.
`PendingNonceAt` answers a `uint64`; `SendTransaction` answers an error or nil. -/
structure Client where
  PendingNonceAt : Address → Except String Nat
  SuggestGasPrice : Except String Int
  HeaderByNumber : Option Int → Except String Header
  SuggestGasTipCap : Except String Int
  SendTransaction : SignedTx → Option String

/-- Functions of go-ethereum called by the builder and defined outside this repository. -/
structure Lib where
  HexToAddress : String → Address
  SignTx : Transaction → Signer → PrivateKey → Except String SignedTx
  Hash : SignedTx → Hash

/-- The struct `TxBuild`. -/
structure TxBuild where
  client : Client
  privateKey : PrivateKey
  signer : Signer
  fromAddress : Address
  nonce : Nat
  supportsEIP1559 : Bool
  tokenAddress : Option Address

/-- Effects of the builder, recorded in program order. -/
inductive Event where
  | atomicAdd (old : Nat)
  | atomicStore (val : Nat)
  | pendingNonceAt (account : Address) (res : Except String Nat)
  | suggestGasPrice (res : Except String Int)
  | headerByNumber (res : Except String Header)
  | suggestGasTipCap (res : Except String Int)
  | signTx (tx : Transaction) (res : Except String SignedTx)
  | sendTransaction (tx : SignedTx) (res : Option String)
  | logError (msg : String)
  | logInfo (msg : String)

namespace Event

/-- Whether the effect is a request to the remote endpoint. -/
def isEndpointQuery : Event → Bool
  | pendingNonceAt _ _ => true
  | suggestGasPrice _ => true
  | headerByNumber _ => true
  | suggestGasTipCap _ => true
  | sendTransaction _ _ => true
  | _ => false

/-- Whether the effect is a pending-sequence-number query (a resynchronization attempt). -/
def isPendingNonceAt : Event → Bool
  | pendingNonceAt _ _ => true
  | _ => false

/-- Whether the effect is a submission attempt. -/
def isSendTransaction : Event → Bool
  | sendTransaction _ _ => true
  | _ => false

/-- Whether the effect is an allocation from the counter. -/
def isAtomicAdd : Event → Bool
  | atomicAdd _ => true
  | _ => false

/-- Whether the effect overwrites the counter. -/
def isAtomicStore : Event → Bool
  | atomicStore _ => true
  | _ => false

end Event

/-! ## Library functions modelled concretely -/

/-- Method `(*big.Int).Bytes`: the big-endian bytes of the absolute value, without leading
zeros (the empty slice for zero). -/
def bigIntBytes (x : Int) : List Nat := (Nat.digits 256 x.natAbs).reverse

/-- Function `common.LeftPadBytes`: the slice itself when it already has `l` bytes or more,
otherwise the slice preceded by zero bytes up to length `l`. -/
def LeftPadBytes (slice : List Nat) (l : Nat) : List Nat :=
  if l ≤ slice.length then slice
  else List.replicate (l - slice.length) 0 ++ slice

/-- Function `unicode.ToLower` on one rune: the upper-case ASCII letters, and the two
non-ASCII runes whose lower case is an ASCII letter (U+0130 and U+212A).  The other
non-ASCII runes have non-ASCII lower-case forms and are left as they are. -/
def toLowerRune (c : Char) : Char :=
  if 65 ≤ c.toNat ∧ c.toNat ≤ 90 then Char.ofNat (c.toNat + 32)
  else if c.toNat = 0x130 then 'i'
  else if c.toNat = 0x212A then 'k'
  else c

/-- Function `strings.ToLower`. -/
def ToLower (s : String) : String := ⟨s.data.map toLowerRune⟩

/-- Whether the second list starts the first one. -/
def startsWith : List Char → List Char → Bool
  | _, [] => true
  | [], _ :: _ => false
  | c :: s, d :: p => c == d && startsWith s p

/-- Whether the second list occurs in the first one as a contiguous block. -/
def containsChars : List Char → List Char → Bool
  | [], p => startsWith [] p
  | c :: s, p => startsWith (c :: s) p || containsChars s p

/-- Function `strings.Contains`. -/
def Contains (s substr : String) : Bool := containsChars s.data substr.data

/-! ## The builder -/

/-- Method `Sender`. -/
def TxBuild.Sender (b : TxBuild) : Address := b.fromAddress

/-- Method `getAndIncrementNonce`: `atomic.AddUint64(&b.nonce, 1) - 1`, both operations in
`uint64` arithmetic.  Returns the value, the builder afterwards, and the effects. -/
def TxBuild.getAndIncrementNonce (b : TxBuild) : Nat × TxBuild × List Event :=
  let added := (b.nonce + 1) % UINT64_MOD
  ((added + UINT64_MOD - 1) % UINT64_MOD, { b with nonce := added }, [Event.atomicAdd b.nonce])

/-- Method `refreshNonce`: it has no result; the builder afterwards and the effects. -/
def TxBuild.refreshNonce (b : TxBuild) : TxBuild × List Event :=
  match b.client.PendingNonceAt b.Sender with
  | .error e =>
    (b, [Event.pendingNonceAt b.Sender (.error e),
         Event.logError "failed to refresh account nonce"])
  | .ok nonce =>
    ({ b with nonce := nonce },
     [Event.pendingNonceAt b.Sender (.ok nonce), Event.atomicStore nonce])

/-- Function `buildERC20TransferData`. -/
def buildERC20TransferData (to_ : Address) (amount : Int) : List Nat :=
  let methodID : List Nat := [0xa9, 0x05, 0x9c, 0xbb]
  let paddedAddress := LeftPadBytes to_.bytes 32
  let paddedAmount := LeftPadBytes (bigIntBytes amount) 32
  (([] ++ methodID) ++ paddedAddress) ++ paddedAmount

/-- Method `buildEIP1559Tx`.  Multiplying a nil `header.BaseFee` panics. -/
def TxBuild.buildEIP1559Tx (b : TxBuild) (to_ : Option Address) (value : Int) (gasLimit : Nat)
    (nonce : Nat) (data : List Nat) : Res Transaction × List Event :=
  match b.client.HeaderByNumber none with
  | .error e => (.err e, [Event.headerByNumber (.error e)])
  | .ok header =>
    match b.client.SuggestGasTipCap with
    | .error e => (.err e, [Event.headerByNumber (.ok header), Event.suggestGasTipCap (.error e)])
    | .ok gasTipCap =>
      let evs := [Event.headerByNumber (.ok header), Event.suggestGasTipCap (.ok gasTipCap)]
      match header.BaseFee with
      | none => (.panic, evs)
      | some baseFee =>
        let gasFeeCap := baseFee * 2
        let gasFeeCap := gasFeeCap + gasTipCap
        (.ok (Transaction.dynamicFee
          { ChainID := b.signer.ChainID
            Nonce := nonce
            GasTipCap := gasTipCap
            GasFeeCap := gasFeeCap
            Gas := gasLimit
            To := to_
            Value := value
            Data := data }), evs)

/-- Method `buildLegacyTx`. -/
def TxBuild.buildLegacyTx (b : TxBuild) (to_ : Option Address) (value : Int) (gasLimit : Nat)
    (nonce : Nat) (data : List Nat) : Res Transaction × List Event :=
  match b.client.SuggestGasPrice with
  | .error e => (.err e, [Event.suggestGasPrice (.error e)])
  | .ok gasPrice =>
    let evs := [Event.suggestGasPrice (.ok gasPrice)]
    let gasPrice := gasPrice + 20
    (.ok (Transaction.legacy
      { Nonce := nonce
        GasPrice := gasPrice
        Gas := gasLimit
        To := to_
        Value := value
        Data := data }), evs)

/-- What a call of `Transfer` does: it returns a hash and an error (nil when absent), or panics. -/
inductive TransferResult where
  | returned (hash : Hash) (err : Option String)
  | panicked
  deriving DecidableEq

/-- Method `Transfer`.  Returns the result, the builder afterwards, and the effects. -/
def TxBuild.Transfer (lib : Lib) (b : TxBuild) (to_ : String) (value : Int) :
    TransferResult × TxBuild × List Event :=
  let gasLimit : Nat := 200000
  let toAddress := lib.HexToAddress to_
  match b.getAndIncrementNonce with
  | (nonce, b1, ev0) =>
    let target : Address × Int × List Nat :=
      match b1.tokenAddress with
      | some tokenAddress => (tokenAddress, 0, buildERC20TransferData toAddress value)
      | none => (toAddress, value, [])
    let txTo := target.1
    let txValue := target.2.1
    let txData := target.2.2
    let built :=
      if b1.supportsEIP1559 then b1.buildEIP1559Tx (some txTo) txValue gasLimit nonce txData
      else b1.buildLegacyTx (some txTo) txValue gasLimit nonce txData
    match built with
    | (.err e, ev1) => (.returned zeroHash (some e), b1, ev0 ++ ev1)
    | (.panic, ev1) => (.panicked, b1, ev0 ++ ev1)
    | (.ok unsignedTx, ev1) =>
      let ev2 := [Event.logInfo "Faucet txn details"]
      match lib.SignTx unsignedTx b1.signer b1.privateKey with
      | .error e =>
        (.returned zeroHash (some e), b1,
          ev0 ++ ev1 ++ ev2 ++ [Event.signTx unsignedTx (.error e)])
      | .ok signedTx =>
        let ev3 := [Event.signTx unsignedTx (.ok signedTx)]
        match b1.client.SendTransaction signedTx with
        | some e =>
          let ev4 := [Event.sendTransaction signedTx (some e)]
          if Contains (ToLower e) "nonce" then
            match b1.refreshNonce with
            | (b2, ev5) =>
              (.returned zeroHash (some e), b2, ev0 ++ ev1 ++ ev2 ++ ev3 ++ ev4 ++ ev5)
          else
            (.returned zeroHash (some e), b1, ev0 ++ ev1 ++ ev2 ++ ev3 ++ ev4)
        | none =>
          (.returned (lib.Hash signedTx) none, b1,
            ev0 ++ ev1 ++ ev2 ++ ev3 ++ [Event.sendTransaction signedTx none])

/-! ## Harness and sample values -/

/-- Allocations by concurrent callers, one atomic `getAndIncrementNonce` step per entry of
`sched` (the caller identifiers in the order in which their steps take effect), with no
`refreshNonce` in between: the value handed to each caller, and the builder afterwards. -/
def allocateAll : List Nat → TxBuild → List (Nat × Nat) × TxBuild
  | [], b => ([], b)
  | caller :: rest, b =>
    match b.getAndIncrementNonce with
    | (n, b1, _) =>
      match allocateAll rest b1 with
      | (out, b2) => ((caller, n) :: out, b2)

/-- A sample address: twenty times the byte `fill`. -/
def sampleAddress (fill : Nat) : Address := ⟨List.replicate 20 fill, List.length_replicate 20 fill⟩

/-- A sample endpoint with the given answers to the pending-nonce query and to a submission. -/
def sampleClient (pending : Except String Nat) (send : Option String) : Client :=
  { PendingNonceAt := fun _ => pending
    SuggestGasPrice := .ok 1000
    HeaderByNumber := fun _ => .ok { BaseFee := some 7 }
    SuggestGasTipCap := .ok 3
    SendTransaction := fun _ => send }

/-- A sample library: every string is the address of `0xbb` bytes, signing always succeeds. -/
def sampleLib : Lib :=
  { HexToAddress := fun _ => sampleAddress 0xbb
    SignTx := fun tx _ _ => .ok { tx := tx, V := 27, R := 1, S := 2 }
    Hash := fun _ => List.replicate 32 1 }

/-- A sample builder. -/
def sampleBuilder (client : Client) (nonce : Nat) (eip1559 : Bool) (token : Option Address) :
    TxBuild :=
  { client := client
    privateKey := { D := 1 }
    signer := { chainID := 84532 }
    fromAddress := sampleAddress 0xaa
    nonce := nonce
    supportsEIP1559 := eip1559
    tokenAddress := token }

/-- The native transfer of 30 to the sample destination that the sample builder builds under
the legacy scheme with sequence number `nonce`. -/
def sampleUnsigned (nonce : Nat) : Transaction :=
  Transaction.legacy
    { Nonce := nonce, GasPrice := 1020, Gas := 200000, To := some (sampleAddress 0xbb),
      Value := 30, Data := [] }

/-- The sample transaction as signed by the sample library. -/
def sampleSigned (nonce : Nat) : SignedTx :=
  { tx := sampleUnsigned nonce, V := 27, R := 1, S := 2 }

/-- Whether the effect is one of the fee queries of the two build methods. -/
def Event.isFeeQuery : Event → Bool
  | suggestGasPrice _ => true
  | headerByNumber _ => true
  | suggestGasTipCap _ => true
  | _ => false

/-- The recipient, value and payload that `Transfer` selects (its lines 79 to 87). -/
def transferTarget (lib : Lib) (b : TxBuild) (to_ : String) (value : Int) :
    Address × Int × List Nat :=
  match b.tokenAddress with
  | some tokenAddress => (tokenAddress, 0, buildERC20TransferData (lib.HexToAddress to_) value)
  | none => (lib.HexToAddress to_, value, [])

/-- The build stage of `Transfer` (its lines 74 to 96): the unsigned transaction or the
failure of the fee query, with the effects of the queries. -/
def transferBuilt (lib : Lib) (b : TxBuild) (to_ : String) (value : Int) :
    Res Transaction × List Event :=
  if b.supportsEIP1559 then
    b.getAndIncrementNonce.2.1.buildEIP1559Tx (some (transferTarget lib b to_ value).1)
      (transferTarget lib b to_ value).2.1 200000 b.getAndIncrementNonce.1
      (transferTarget lib b to_ value).2.2
  else
    b.getAndIncrementNonce.2.1.buildLegacyTx (some (transferTarget lib b to_ value).1)
      (transferTarget lib b to_ value).2.1 200000 b.getAndIncrementNonce.1
      (transferTarget lib b to_ value).2.2

/-! ## Lemmas on the counter -/

theorem getAndIncrementNonce_fst (b : TxBuild) (h : b.nonce < UINT64_MOD) :
    b.getAndIncrementNonce.1 = b.nonce := by
  simp only [TxBuild.getAndIncrementNonce, UINT64_MOD] at *
  omega

theorem getAndIncrementNonce_nonce (b : TxBuild) :
    b.getAndIncrementNonce.2.1.nonce = (b.nonce + 1) % UINT64_MOD := rfl

theorem allocateAll_spec (sched : List Nat) :
    ∀ b : TxBuild, b.nonce + sched.length < UINT64_MOD →
      (allocateAll sched b).1 = sched.zip (List.range' b.nonce sched.length)
      ∧ (allocateAll sched b).2.nonce = b.nonce + sched.length := by
  induction sched with
  | nil => intro b _; simp [allocateAll]
  | cons caller rest ih =>
    intro b h
    simp only [List.length_cons] at h
    have hb : b.nonce < UINT64_MOD := by omega
    have h1 : b.getAndIncrementNonce.2.1.nonce = b.nonce + 1 := by
      rw [getAndIncrementNonce_nonce]; exact Nat.mod_eq_of_lt (by omega)
    have ih1 := ih b.getAndIncrementNonce.2.1 (by rw [h1]; omega)
    have h0 := getAndIncrementNonce_fst b hb
    simp only [allocateAll, List.length_cons, List.range'_succ, List.zip_cons_cons]
    rw [h1] at ih1
    refine ⟨?_, ?_⟩
    · rw [ih1.1, h0]
    · rw [ih1.2]; omega

/-! ## Claims on the counter -/

/-- C1: for every starting counter value and every number N of allocations with start+N below
2^64, whatever the order in which the callers take their atomic step, the values handed out
are start, start+1, ..., start+N-1 in that order (so each once, no gap, no duplicate), each
caller of the schedule gets one, the counter ends at start+N, and every single call returns
the value the counter had before it. -/
theorem allocate_all_exact (b : TxBuild) (sched : List Nat)
    (h : b.nonce + sched.length < UINT64_MOD) :
    (allocateAll sched b).1.map Prod.snd = List.range' b.nonce sched.length
    ∧ ((allocateAll sched b).1.map Prod.snd).Nodup
    ∧ (allocateAll sched b).1.map Prod.fst = sched
    ∧ (allocateAll sched b).2.nonce = b.nonce + sched.length
    ∧ (∀ b1 : TxBuild, b1.nonce < UINT64_MOD →
        b1.getAndIncrementNonce.1 = b1.nonce
        ∧ b1.getAndIncrementNonce.2.2 = [Event.atomicAdd b1.nonce]) := by
  obtain ⟨h1, h2⟩ := allocateAll_spec sched b h
  have hsnd : (allocateAll sched b).1.map Prod.snd = List.range' b.nonce sched.length := by
    rw [h1]; exact List.map_snd_zip _ _ (by simp)
  refine ⟨hsnd, ?_, ?_, h2, ?_⟩
  · rw [hsnd]; exact List.nodup_range' _ _
  · rw [h1]; exact List.map_fst_zip _ _ (by simp)
  · intro b1 hb1
    exact ⟨getAndIncrementNonce_fst b1 hb1, rfl⟩

/-- Witness of C1: three allocations by callers 7, 3 and 7 starting from 5. -/
theorem allocate_all_exact_witness :
    (sampleBuilder (sampleClient (.ok 0) none) 5 false none).nonce + [7, 3, 7].length
        < UINT64_MOD
    ∧ (allocateAll [7, 3, 7] (sampleBuilder (sampleClient (.ok 0) none) 5 false none)).1
        = [(7, 5), (3, 6), (7, 7)]
    ∧ (allocateAll [7, 3, 7]
        (sampleBuilder (sampleClient (.ok 0) none) 5 false none)).1.map Prod.snd
        = List.range' 5 3 :=
  ⟨by decide, by decide,
    (allocate_all_exact (sampleBuilder (sampleClient (.ok 0) none) 5 false none) [7, 3, 7]
      (by decide)).1⟩

/-- C2: for every prior counter value and every remote pending value R (a uint64), after a
refreshNonce whose query succeeds with R the counter equals R, it was written by one store,
and the next getAndIncrementNonce returns exactly R. -/
theorem refreshNonce_ok (b : TxBuild) (R : Nat) (hR : R < UINT64_MOD)
    (hq : b.client.PendingNonceAt b.Sender = .ok R) :
    b.refreshNonce.1.nonce = R
    ∧ b.refreshNonce.1.getAndIncrementNonce.1 = R
    ∧ b.refreshNonce.2 = [Event.pendingNonceAt b.Sender (.ok R), Event.atomicStore R] := by
  have h1 : b.refreshNonce = ({ b with nonce := R },
      [Event.pendingNonceAt b.Sender (.ok R), Event.atomicStore R]) := by
    simp only [TxBuild.refreshNonce, hq]
  rw [h1]
  exact ⟨rfl, getAndIncrementNonce_fst _ hR, rfl⟩

/-- Witness of C2: the counter is 9 and the endpoint answers 4 (a rewind). -/
theorem refreshNonce_ok_witness :
    (4 < UINT64_MOD
      ∧ (sampleBuilder (sampleClient (.ok 4) none) 9 false none).client.PendingNonceAt
          (sampleBuilder (sampleClient (.ok 4) none) 9 false none).Sender = .ok 4)
    ∧ (sampleBuilder (sampleClient (.ok 4) none) 9 false none).refreshNonce.1.nonce = 4
    ∧ (sampleBuilder (sampleClient (.ok 4) none) 9 false
        none).refreshNonce.1.getAndIncrementNonce.1 = 4 :=
  ⟨⟨by decide, rfl⟩,
    (refreshNonce_ok (sampleBuilder (sampleClient (.ok 4) none) 9 false none) 4
      (by decide) rfl).1,
    (refreshNonce_ok (sampleBuilder (sampleClient (.ok 4) none) 9 false none) 4
      (by decide) rfl).2.1⟩

/-- C3: for every counter value c (a uint64), a refreshNonce whose pending-nonce query fails
leaves the builder, hence the counter, as it was, performs no store (it only logs), has no
error result, and the next getAndIncrementNonce still returns c. -/
theorem refreshNonce_failed (b : TxBuild) (e : String) (hc : b.nonce < UINT64_MOD)
    (hq : b.client.PendingNonceAt b.Sender = .error e) :
    b.refreshNonce.1 = b
    ∧ b.refreshNonce.1.nonce = b.nonce
    ∧ b.refreshNonce.2 = [Event.pendingNonceAt b.Sender (.error e),
        Event.logError "failed to refresh account nonce"]
    ∧ b.refreshNonce.1.getAndIncrementNonce.1 = b.nonce := by
  have h1 : b.refreshNonce = (b, [Event.pendingNonceAt b.Sender (.error e),
      Event.logError "failed to refresh account nonce"]) := by
    simp only [TxBuild.refreshNonce, hq]
  rw [h1]
  exact ⟨rfl, rfl, rfl, getAndIncrementNonce_fst _ hc⟩

/-- Witness of C3: the counter is 9 and the endpoint is unreachable. -/
theorem refreshNonce_failed_witness :
    ((sampleBuilder (sampleClient (.error "timeout") none) 9 false none).nonce < UINT64_MOD
      ∧ (sampleBuilder (sampleClient (.error "timeout") none) 9 false
          none).client.PendingNonceAt
          (sampleBuilder (sampleClient (.error "timeout") none) 9 false none).Sender
          = .error "timeout")
    ∧ (sampleBuilder (sampleClient (.error "timeout") none) 9 false
        none).refreshNonce.1.nonce = 9
    ∧ (sampleBuilder (sampleClient (.error "timeout") none) 9 false
        none).refreshNonce.1.getAndIncrementNonce.1 = 9 :=
  ⟨⟨by decide, rfl⟩,
    (refreshNonce_failed (sampleBuilder (sampleClient (.error "timeout") none) 9 false none)
      "timeout" (by decide) rfl).2.1,
    (refreshNonce_failed (sampleBuilder (sampleClient (.error "timeout") none) 9 false none)
      "timeout" (by decide) rfl).2.2.2⟩

/-! ## Claims on the fee computation -/

/-- C8: under the legacy scheme, for every suggested gas price P answered by the endpoint,
buildLegacyTx builds a legacy transaction whose gas price is exactly P + 20 and whose
sequence number, gas limit, recipient, value and data are the arguments, unchanged; the
only effect is the one gas-price query. -/
theorem buildLegacyTx_gasPrice (b : TxBuild) (to_ : Option Address) (value : Int)
    (gasLimit nonce : Nat) (data : List Nat) (P : Int)
    (hq : b.client.SuggestGasPrice = .ok P) :
    b.buildLegacyTx to_ value gasLimit nonce data
      = (.ok (Transaction.legacy
          { Nonce := nonce, GasPrice := P + 20, Gas := gasLimit, To := to_, Value := value,
            Data := data }),
         [Event.suggestGasPrice (.ok P)]) := by
  simp only [TxBuild.buildLegacyTx, hq]

/-- Witness of C8: the sample endpoint suggests 1000, the built gas price is 1020. -/
theorem buildLegacyTx_gasPrice_witness :
    (sampleBuilder (sampleClient (.ok 0) none) 5 false none).client.SuggestGasPrice = .ok 1000
    ∧ ((sampleBuilder (sampleClient (.ok 0) none) 5 false none).buildLegacyTx
        (some (sampleAddress 1)) 30 200000 5 [1, 2]).1
      = .ok (Transaction.legacy
          { Nonce := 5, GasPrice := 1020, Gas := 200000, To := some (sampleAddress 1),
            Value := 30, Data := [1, 2] }) :=
  ⟨rfl, congrArg Prod.fst
    (buildLegacyTx_gasPrice (sampleBuilder (sampleClient (.ok 0) none) 5 false none)
      (some (sampleAddress 1)) 30 200000 5 [1, 2] 1000 rfl)⟩

/-- C9: under the base-fee scheme, for every base fee B of the latest header and every
suggested priority fee T answered by the endpoint, buildEIP1559Tx builds a dynamic-fee
transaction with fee cap exactly 2*B + T, priority-fee cap exactly T and the chain identifier
of the signer; the other fields are the arguments, unchanged. -/
theorem buildEIP1559Tx_fees (b : TxBuild) (to_ : Option Address) (value : Int)
    (gasLimit nonce : Nat) (data : List Nat) (header : Header) (B T : Int)
    (hh : b.client.HeaderByNumber none = .ok header) (hB : header.BaseFee = some B)
    (ht : b.client.SuggestGasTipCap = .ok T) :
    b.buildEIP1559Tx to_ value gasLimit nonce data
      = (.ok (Transaction.dynamicFee
          { ChainID := b.signer.ChainID, Nonce := nonce, GasTipCap := T,
            GasFeeCap := 2 * B + T, Gas := gasLimit, To := to_, Value := value,
            Data := data }),
         [Event.headerByNumber (.ok header), Event.suggestGasTipCap (.ok T)]) := by
  simp only [TxBuild.buildEIP1559Tx, hh, ht, hB, mul_comm B 2]

/-- Witness of C9: base fee 7 and suggested priority fee 3 give fee cap 17. -/
theorem buildEIP1559Tx_fees_witness :
    ((sampleBuilder (sampleClient (.ok 0) none) 5 true none).client.HeaderByNumber none
        = .ok { BaseFee := some 7 }
      ∧ (Header.mk (some 7)).BaseFee = some 7
      ∧ (sampleBuilder (sampleClient (.ok 0) none) 5 true none).client.SuggestGasTipCap = .ok 3)
    ∧ ((sampleBuilder (sampleClient (.ok 0) none) 5 true none).buildEIP1559Tx
        (some (sampleAddress 1)) 30 200000 5 [1, 2]).1
      = .ok (Transaction.dynamicFee
          { ChainID := 84532, Nonce := 5, GasTipCap := 3, GasFeeCap := 17, Gas := 200000,
            To := some (sampleAddress 1), Value := 30, Data := [1, 2] }) :=
  ⟨⟨rfl, rfl, rfl⟩, congrArg Prod.fst
    (buildEIP1559Tx_fees (sampleBuilder (sampleClient (.ok 0) none) 5 true none)
      (some (sampleAddress 1)) 30 200000 5 [1, 2] { BaseFee := some 7 } 7 3 rfl rfl rfl)⟩

/-! ## Lemmas on `Transfer` -/

/-- The method `Transfer` as the build stage followed by signing and submission. -/
theorem transfer_unfold (lib : Lib) (b : TxBuild) (to_ : String) (value : Int) :
    b.Transfer lib to_ value =
      match transferBuilt lib b to_ value with
      | (.err e, ev1) =>
        (.returned zeroHash (some e), b.getAndIncrementNonce.2.1, [Event.atomicAdd b.nonce] ++ ev1)
      | (.panic, ev1) =>
        (.panicked, b.getAndIncrementNonce.2.1, [Event.atomicAdd b.nonce] ++ ev1)
      | (.ok unsignedTx, ev1) =>
        match lib.SignTx unsignedTx b.signer b.privateKey with
        | .error e =>
          (.returned zeroHash (some e), b.getAndIncrementNonce.2.1,
            [Event.atomicAdd b.nonce] ++ ev1 ++ [Event.logInfo "Faucet txn details"]
              ++ [Event.signTx unsignedTx (.error e)])
        | .ok signedTx =>
          match b.client.SendTransaction signedTx with
          | some e =>
            if Contains (ToLower e) "nonce" then
              (.returned zeroHash (some e), b.getAndIncrementNonce.2.1.refreshNonce.1,
                [Event.atomicAdd b.nonce] ++ ev1 ++ [Event.logInfo "Faucet txn details"]
                  ++ [Event.signTx unsignedTx (.ok signedTx)]
                  ++ [Event.sendTransaction signedTx (some e)]
                  ++ b.getAndIncrementNonce.2.1.refreshNonce.2)
            else
              (.returned zeroHash (some e), b.getAndIncrementNonce.2.1,
                [Event.atomicAdd b.nonce] ++ ev1 ++ [Event.logInfo "Faucet txn details"]
                  ++ [Event.signTx unsignedTx (.ok signedTx)]
                  ++ [Event.sendTransaction signedTx (some e)])
          | none =>
            (.returned (lib.Hash signedTx) none, b.getAndIncrementNonce.2.1,
              [Event.atomicAdd b.nonce] ++ ev1 ++ [Event.logInfo "Faucet txn details"]
                ++ [Event.signTx unsignedTx (.ok signedTx)]
                ++ [Event.sendTransaction signedTx none]) := by
  rfl

theorem buildLegacyTx_fields (b : TxBuild) (to_ : Option Address) (value : Int)
    (gasLimit nonce : Nat) (data : List Nat) (utx : Transaction) (ev1 : List Event)
    (h : b.buildLegacyTx to_ value gasLimit nonce data = (.ok utx, ev1)) :
    utx.Nonce = nonce ∧ utx.Gas = gasLimit ∧ utx.To = to_ ∧ utx.Value = value
    ∧ utx.Data = data := by
  unfold TxBuild.buildLegacyTx at h
  split at h
  · simp at h
  · obtain ⟨h1, _⟩ := Prod.mk.inj h
    cases h1
    exact ⟨rfl, rfl, rfl, rfl, rfl⟩

theorem buildEIP1559Tx_fields (b : TxBuild) (to_ : Option Address) (value : Int)
    (gasLimit nonce : Nat) (data : List Nat) (utx : Transaction) (ev1 : List Event)
    (h : b.buildEIP1559Tx to_ value gasLimit nonce data = (.ok utx, ev1)) :
    utx.Nonce = nonce ∧ utx.Gas = gasLimit ∧ utx.To = to_ ∧ utx.Value = value
    ∧ utx.Data = data := by
  unfold TxBuild.buildEIP1559Tx at h
  split at h
  · simp at h
  · split at h
    · simp at h
    · split at h
      · simp at h
      · obtain ⟨h1, _⟩ := Prod.mk.inj h
        cases h1
        exact ⟨rfl, rfl, rfl, rfl, rfl⟩

theorem transferBuilt_fields (lib : Lib) (b : TxBuild) (to_ : String) (value : Int)
    (utx : Transaction) (ev1 : List Event)
    (h : transferBuilt lib b to_ value = (.ok utx, ev1)) :
    utx.Nonce = b.getAndIncrementNonce.1 ∧ utx.Gas = 200000
    ∧ utx.To = some (transferTarget lib b to_ value).1
    ∧ utx.Value = (transferTarget lib b to_ value).2.1
    ∧ utx.Data = (transferTarget lib b to_ value).2.2 := by
  unfold transferBuilt at h
  split at h
  · exact buildEIP1559Tx_fields _ _ _ _ _ _ _ _ h
  · exact buildLegacyTx_fields _ _ _ _ _ _ _ _ h

theorem transferBuilt_events (lib : Lib) (b : TxBuild) (to_ : String) (value : Int) :
    ∀ ev ∈ (transferBuilt lib b to_ value).2, ev.isFeeQuery = true := by
  unfold transferBuilt
  split
  · unfold TxBuild.buildEIP1559Tx
    split
    · simp [Event.isFeeQuery]
    · split
      · simp [Event.isFeeQuery]
      · split <;> simp [Event.isFeeQuery]
  · unfold TxBuild.buildLegacyTx
    split <;> simp [Event.isFeeQuery]

theorem countP_feeQueries (p : Event → Bool) (l : List Event)
    (hl : ∀ ev ∈ l, ev.isFeeQuery = true) (hp : ∀ ev, ev.isFeeQuery = true → p ev = false) :
    l.countP p = 0 := by
  rw [List.countP_eq_zero]
  intro ev hev
  simp [hp ev (hl ev hev)]

theorem refreshNonce_counts (b : TxBuild) :
    b.refreshNonce.2.countP Event.isPendingNonceAt = 1
    ∧ b.refreshNonce.2.countP Event.isSendTransaction = 0
    ∧ b.refreshNonce.2.countP Event.isAtomicAdd = 0 := by
  unfold TxBuild.refreshNonce
  split <;> simp [Event.isPendingNonceAt, Event.isSendTransaction, Event.isAtomicAdd]

theorem transfer_outcomes (lib : Lib) (b : TxBuild) (to_ : String) (value : Int) :
    (∃ e ev1, transferBuilt lib b to_ value = (.err e, ev1)
      ∧ b.Transfer lib to_ value
        = (.returned zeroHash (some e), b.getAndIncrementNonce.2.1,
            Event.atomicAdd b.nonce :: ev1))
    ∨ (∃ ev1, transferBuilt lib b to_ value = (.panic, ev1)
      ∧ b.Transfer lib to_ value
        = (.panicked, b.getAndIncrementNonce.2.1, Event.atomicAdd b.nonce :: ev1))
    ∨ (∃ utx ev1 e, transferBuilt lib b to_ value = (.ok utx, ev1)
      ∧ lib.SignTx utx b.signer b.privateKey = .error e
      ∧ b.Transfer lib to_ value
        = (.returned zeroHash (some e), b.getAndIncrementNonce.2.1,
            Event.atomicAdd b.nonce :: (ev1 ++ [Event.logInfo "Faucet txn details",
              Event.signTx utx (.error e)])))
    ∨ (∃ utx ev1 stx, transferBuilt lib b to_ value = (.ok utx, ev1)
      ∧ lib.SignTx utx b.signer b.privateKey = .ok stx
      ∧ b.client.SendTransaction stx = none
      ∧ b.Transfer lib to_ value
        = (.returned (lib.Hash stx) none, b.getAndIncrementNonce.2.1,
            Event.atomicAdd b.nonce :: (ev1 ++ [Event.logInfo "Faucet txn details",
              Event.signTx utx (.ok stx), Event.sendTransaction stx none])))
    ∨ (∃ utx ev1 stx e, transferBuilt lib b to_ value = (.ok utx, ev1)
      ∧ lib.SignTx utx b.signer b.privateKey = .ok stx
      ∧ b.client.SendTransaction stx = some e
      ∧ Contains (ToLower e) "nonce" = false
      ∧ b.Transfer lib to_ value
        = (.returned zeroHash (some e), b.getAndIncrementNonce.2.1,
            Event.atomicAdd b.nonce :: (ev1 ++ [Event.logInfo "Faucet txn details",
              Event.signTx utx (.ok stx), Event.sendTransaction stx (some e)])))
    ∨ (∃ utx ev1 stx e, transferBuilt lib b to_ value = (.ok utx, ev1)
      ∧ lib.SignTx utx b.signer b.privateKey = .ok stx
      ∧ b.client.SendTransaction stx = some e
      ∧ Contains (ToLower e) "nonce" = true
      ∧ b.Transfer lib to_ value
        = (.returned zeroHash (some e), b.getAndIncrementNonce.2.1.refreshNonce.1,
            Event.atomicAdd b.nonce :: (ev1 ++ [Event.logInfo "Faucet txn details",
              Event.signTx utx (.ok stx), Event.sendTransaction stx (some e)]
              ++ b.getAndIncrementNonce.2.1.refreshNonce.2))) := by
  rw [transfer_unfold]
  rcases hb : transferBuilt lib b to_ value with ⟨r, ev1⟩
  cases r with
  | err e => exact Or.inl ⟨e, ev1, rfl, rfl⟩
  | panic => exact Or.inr (Or.inl ⟨ev1, rfl, rfl⟩)
  | ok utx =>
    simp only
    cases hsg : lib.SignTx utx b.signer b.privateKey with
    | error e =>
      refine Or.inr (Or.inr (Or.inl ⟨utx, ev1, e, rfl, hsg, ?_⟩))
      simp
    | ok stx =>
      simp only
      cases hsd : b.client.SendTransaction stx with
      | none =>
        refine Or.inr (Or.inr (Or.inr (Or.inl ⟨utx, ev1, stx, rfl, hsg, hsd, ?_⟩)))
        simp
      | some e =>
        simp only
        cases hc : Contains (ToLower e) "nonce" with
        | false =>
          refine Or.inr (Or.inr (Or.inr (Or.inr (Or.inl ⟨utx, ev1, stx, e, rfl, hsg, hsd, hc, ?_⟩))))
          simp
        | true =>
          refine Or.inr (Or.inr (Or.inr (Or.inr (Or.inr ⟨utx, ev1, stx, e, rfl, hsg, hsd, hc, ?_⟩))))
          simp

theorem feeQueries_no_send (l : List Event) (hl : ∀ ev ∈ l, ev.isFeeQuery = true)
    (stx : SignedTx) (r : Option String) : Event.sendTransaction stx r ∉ l := by
  intro hmem
  have := hl _ hmem
  simp [Event.isFeeQuery] at this

theorem feeQueries_no_sign (l : List Event) (hl : ∀ ev ∈ l, ev.isFeeQuery = true)
    (tx : Transaction) (r : Except String SignedTx) : Event.signTx tx r ∉ l := by
  intro hmem
  have := hl _ hmem
  simp [Event.isFeeQuery] at this

theorem refreshNonce_no_send (b : TxBuild) (stx : SignedTx) (r : Option String) :
    Event.sendTransaction stx r ∉ b.refreshNonce.2 := by
  unfold TxBuild.refreshNonce
  split <;> simp

theorem refreshNonce_no_sign (b : TxBuild) (tx : Transaction) (r : Except String SignedTx) :
    Event.signTx tx r ∉ b.refreshNonce.2 := by
  unfold TxBuild.refreshNonce
  split <;> simp

theorem feeQueries_counts (l : List Event) (hl : ∀ ev ∈ l, ev.isFeeQuery = true) :
    l.countP Event.isPendingNonceAt = 0 ∧ l.countP Event.isAtomicStore = 0
    ∧ l.countP Event.isSendTransaction = 0 ∧ l.countP Event.isAtomicAdd = 0 := by
  refine ⟨countP_feeQueries _ l hl ?_, countP_feeQueries _ l hl ?_,
    countP_feeQueries _ l hl ?_, countP_feeQueries _ l hl ?_⟩
  all_goals
    intro ev
    cases ev <;> simp [Event.isFeeQuery, Event.isPendingNonceAt, Event.isAtomicStore,
      Event.isSendTransaction, Event.isAtomicAdd]

/-! ## Claims on submission failures -/

/-- C7: for every submission failure whose lower-cased error text does not contain "nonce",
Transfer returns that same error with the zero hash, made this one submission attempt only,
makes no pending-nonce query and no store to the counter, and leaves the builder exactly as
it was right after the allocation of this call (counter: the pre-call value plus one,
in uint64 arithmetic). -/
theorem transfer_other_failure (lib : Lib) (b : TxBuild) (to_ : String) (value : Int)
    (stx : SignedTx) (e : String)
    (hs : Event.sendTransaction stx (some e) ∈ (b.Transfer lib to_ value).2.2)
    (hn : Contains (ToLower e) "nonce" = false) :
    (b.Transfer lib to_ value).1 = .returned zeroHash (some e)
    ∧ (b.Transfer lib to_ value).2.2.countP Event.isPendingNonceAt = 0
    ∧ (b.Transfer lib to_ value).2.2.countP Event.isAtomicStore = 0
    ∧ (b.Transfer lib to_ value).2.2.countP Event.isSendTransaction = 1
    ∧ (b.Transfer lib to_ value).2.1 = b.getAndIncrementNonce.2.1
    ∧ (b.Transfer lib to_ value).2.1.nonce = (b.nonce + 1) % UINT64_MOD := by
  have hev := transferBuilt_events lib b to_ value
  rcases transfer_outcomes lib b to_ value with
    ⟨e1, ev1, hb, hT⟩ | ⟨ev1, hb, hT⟩ | ⟨utx, ev1, e1, hb, hsg, hT⟩
    | ⟨utx, ev1, stx1, hb, hsg, hsd, hT⟩ | ⟨utx, ev1, stx1, e1, hb, hsg, hsd, hc, hT⟩
    | ⟨utx, ev1, stx1, e1, hb, hsg, hsd, hc, hT⟩
  all_goals
    rw [hb] at hev
    rw [hT] at hs
    have hns := feeQueries_no_send ev1 hev stx (some e)
    obtain ⟨c1, c2, c3, _⟩ := feeQueries_counts ev1 hev
  · simp [hns] at hs
  · simp [hns] at hs
  · simp [hns] at hs
  · simp [hns] at hs
  · simp [hns] at hs
    obtain ⟨_, rfl⟩ := hs
    rw [hT]
    refine ⟨rfl, ?_, ?_, ?_, rfl, rfl⟩
    · simp [c1, Event.isPendingNonceAt]
    · simp [c2, Event.isAtomicStore]
    · simp [c3, Event.isSendTransaction]
  · simp [hns, refreshNonce_no_send] at hs
    obtain ⟨_, rfl⟩ := hs
    rw [hc] at hn
    exact absurd hn (by decide)

/-- C6: for every submission failure whose lower-cased error text contains "nonce", Transfer
makes exactly one pending-nonce query and exactly one submission attempt, returns that error
with the zero hash, and afterwards the counter is R when the query answers R (and is left at
its value after the allocation when the query fails). -/
theorem transfer_nonce_failure (lib : Lib) (b : TxBuild) (to_ : String) (value : Int)
    (stx : SignedTx) (e : String)
    (hs : Event.sendTransaction stx (some e) ∈ (b.Transfer lib to_ value).2.2)
    (hn : Contains (ToLower e) "nonce" = true) :
    (b.Transfer lib to_ value).1 = .returned zeroHash (some e)
    ∧ (b.Transfer lib to_ value).2.2.countP Event.isPendingNonceAt = 1
    ∧ (b.Transfer lib to_ value).2.2.countP Event.isSendTransaction = 1
    ∧ (∀ R, b.client.PendingNonceAt b.Sender = .ok R →
        (b.Transfer lib to_ value).2.1.nonce = R
        ∧ Event.atomicStore R ∈ (b.Transfer lib to_ value).2.2)
    ∧ (∀ e1, b.client.PendingNonceAt b.Sender = .error e1 →
        (b.Transfer lib to_ value).2.1.nonce = (b.nonce + 1) % UINT64_MOD) := by
  have hev := transferBuilt_events lib b to_ value
  rcases transfer_outcomes lib b to_ value with
    ⟨e1, ev1, hb, hT⟩ | ⟨ev1, hb, hT⟩ | ⟨utx, ev1, e1, hb, hsg, hT⟩
    | ⟨utx, ev1, stx1, hb, hsg, hsd, hT⟩ | ⟨utx, ev1, stx1, e1, hb, hsg, hsd, hc, hT⟩
    | ⟨utx, ev1, stx1, e1, hb, hsg, hsd, hc, hT⟩
  all_goals
    rw [hb] at hev
    rw [hT] at hs
    have hns := feeQueries_no_send ev1 hev stx (some e)
    obtain ⟨c1, c2, c3, _⟩ := feeQueries_counts ev1 hev
  · simp [hns] at hs
  · simp [hns] at hs
  · simp [hns] at hs
  · simp [hns] at hs
  · simp [hns] at hs
    obtain ⟨_, rfl⟩ := hs
    rw [hc] at hn
    exact absurd hn (by decide)
  · simp [hns, refreshNonce_no_send] at hs
    obtain ⟨_, rfl⟩ := hs
    rw [hT]
    obtain ⟨r1, r2, _⟩ := refreshNonce_counts b.getAndIncrementNonce.2.1
    refine ⟨rfl, ?_, ?_, ?_, ?_⟩
    · simp [c1, r1, Event.isPendingNonceAt]
    · simp [c3, r2, Event.isSendTransaction]
    · intro R hq
      have hq1 : b.getAndIncrementNonce.2.1.client.PendingNonceAt
          b.getAndIncrementNonce.2.1.Sender = .ok R := hq
      have hr : b.getAndIncrementNonce.2.1.refreshNonce
          = ({ b.getAndIncrementNonce.2.1 with nonce := R },
              [Event.pendingNonceAt b.getAndIncrementNonce.2.1.Sender (.ok R),
               Event.atomicStore R]) := by
        simp only [TxBuild.refreshNonce, hq1]
      rw [hr]
      exact ⟨rfl, by simp⟩
    · intro e2 hq
      have hq1 : b.getAndIncrementNonce.2.1.client.PendingNonceAt
          b.getAndIncrementNonce.2.1.Sender = .error e2 := hq
      have hr : b.getAndIncrementNonce.2.1.refreshNonce.1 = b.getAndIncrementNonce.2.1 := by
        simp only [TxBuild.refreshNonce, hq1]
      rw [hr]
      rfl

/-! ## Lemmas on the payload encoding -/

theorem bigIntBytes_length_le (v : Int) (h : v.natAbs < 2 ^ 256) :
    (bigIntBytes v).length ≤ 32 := by
  unfold bigIntBytes
  rw [List.length_reverse]
  by_cases h0 : v.natAbs = 0
  · simp [h0]
  · have h1 := Nat.base_pow_length_digits_le 256 v.natAbs (by norm_num) h0
    by_contra hlt
    have h2 : 33 ≤ (Nat.digits 256 v.natAbs).length := by omega
    have h3 : 256 ^ 33 ≤ 256 ^ (Nat.digits 256 v.natAbs).length :=
      Nat.pow_le_pow_right (by norm_num) h2
    have h4 : (256 : Nat) ^ 33 = 256 * 2 ^ 256 := by norm_num
    omega

theorem ofDigits_replicate_zero (k : Nat) : Nat.ofDigits 256 (List.replicate k 0) = 0 := by
  induction k with
  | zero => rfl
  | succ k ih => rw [List.replicate_succ, Nat.ofDigits_cons, ih]

theorem leftPadBytes_decode (v : Int) (l : Nat) :
    Nat.ofDigits 256 (LeftPadBytes (bigIntBytes v) l).reverse = v.natAbs := by
  unfold LeftPadBytes bigIntBytes
  split
  · rw [List.reverse_reverse, Nat.ofDigits_digits]
  · rw [List.reverse_append, List.reverse_reverse, List.reverse_replicate, Nat.ofDigits_append,
      Nat.ofDigits_digits, ofDigits_replicate_zero]
    simp

theorem leftPadBytes_length (slice : List Nat) (l : Nat) (h : slice.length ≤ l) :
    (LeftPadBytes slice l).length = l := by
  unfold LeftPadBytes
  split
  · omega
  · rw [List.length_append, List.length_replicate]; omega

theorem leftPadBytes_address (a : Address) :
    LeftPadBytes a.bytes 32 = List.replicate 12 0 ++ a.bytes := by
  unfold LeftPadBytes
  rw [a.size_eq]
  simp

theorem buildERC20TransferData_eq (D : Address) (v : Int) :
    buildERC20TransferData D v
      = [0xa9, 0x05, 0x9c, 0xbb] ++ (List.replicate 12 0 ++ D.bytes)
        ++ LeftPadBytes (bigIntBytes v) 32 := by
  unfold buildERC20TransferData
  rw [leftPadBytes_address]
  rfl

theorem buildERC20TransferData_length (D : Address) (v : Int) (h : v.natAbs < 2 ^ 256) :
    (buildERC20TransferData D v).length = 68 := by
  rw [buildERC20TransferData_eq, List.length_append, List.length_append, List.length_append,
    leftPadBytes_length _ 32 (bigIntBytes_length_le v h), List.length_replicate, D.size_eq]
  rfl

theorem digits_length_pow (n : Nat) : (Nat.digits 256 (256 ^ n)).length = n + 1 := by
  rw [Nat.digits_len 256 _ (by norm_num) (by positivity), Nat.log_pow (by norm_num)]

theorem bigIntBytes_length_pow : (bigIntBytes (2 ^ 256)).length = 33 := by
  have hv : ((2 : Int) ^ 256).natAbs = 256 ^ 32 := by
    rw [Int.natAbs_pow]; norm_num
  unfold bigIntBytes
  rw [List.length_reverse, hv]
  exact digits_length_pow 32

theorem buildERC20TransferData_length_long (D : Address) (v : Int) (n : Nat)
    (hlen : (bigIntBytes v).length = n) (hn : 32 ≤ n) :
    (buildERC20TransferData D v).length = 36 + n := by
  rw [buildERC20TransferData_eq, List.length_append, List.length_append, List.length_append,
    List.length_replicate, D.size_eq]
  unfold LeftPadBytes
  rw [if_pos (by rw [hlen]; exact hn), hlen]
  rfl

theorem sign_mem_transfer (lib : Lib) (b : TxBuild) (to_ : String) (value : Int)
    (tx : Transaction) (res : Except String SignedTx)
    (hs : Event.signTx tx res ∈ (b.Transfer lib to_ value).2.2) :
    ∃ ev1, transferBuilt lib b to_ value = (.ok tx, ev1) := by
  have hev := transferBuilt_events lib b to_ value
  rcases transfer_outcomes lib b to_ value with
    ⟨e1, ev1, hb, hT⟩ | ⟨ev1, hb, hT⟩ | ⟨utx, ev1, e1, hb, hsg, hT⟩
    | ⟨utx, ev1, stx1, hb, hsg, hsd, hT⟩ | ⟨utx, ev1, stx1, e1, hb, hsg, hsd, hc, hT⟩
    | ⟨utx, ev1, stx1, e1, hb, hsg, hsd, hc, hT⟩
  all_goals
    rw [hb] at hev
    rw [hT] at hs
    have hns := feeQueries_no_sign ev1 hev tx res
  · simp [hns] at hs
  · simp [hns] at hs
  · simp [hns] at hs
    exact ⟨ev1, by rw [hb, hs.1]⟩
  · simp [hns] at hs
    exact ⟨ev1, by rw [hb, hs.1]⟩
  · simp [hns] at hs
    exact ⟨ev1, by rw [hb, hs.1]⟩
  · simp [hns, refreshNonce_no_sign] at hs
    exact ⟨ev1, by rw [hb, hs.1]⟩

theorem transfer_signs_built (lib : Lib) (b : TxBuild) (to_ : String) (value : Int)
    (utx : Transaction) (ev1 : List Event)
    (hb : transferBuilt lib b to_ value = (.ok utx, ev1)) :
    ∃ res, Event.signTx utx res ∈ (b.Transfer lib to_ value).2.2 := by
  rcases transfer_outcomes lib b to_ value with
    ⟨e1, ev2, hb2, hT⟩ | ⟨ev2, hb2, hT⟩ | ⟨utx2, ev2, e1, hb2, hsg, hT⟩
    | ⟨utx2, ev2, stx1, hb2, hsg, hsd, hT⟩ | ⟨utx2, ev2, stx1, e1, hb2, hsg, hsd, hc, hT⟩
    | ⟨utx2, ev2, stx1, e1, hb2, hsg, hsd, hc, hT⟩
  all_goals
    rw [hb] at hb2
    rw [hT]
  · simp at hb2
  · simp at hb2
  · obtain ⟨h1, _⟩ := Prod.mk.inj hb2
    cases h1
    exact ⟨.error e1, by simp⟩
  · obtain ⟨h1, _⟩ := Prod.mk.inj hb2
    cases h1
    exact ⟨.ok stx1, by simp⟩
  · obtain ⟨h1, _⟩ := Prod.mk.inj hb2
    cases h1
    exact ⟨.ok stx1, by simp⟩
  · obtain ⟨h1, _⟩ := Prod.mk.inj hb2
    cases h1
    exact ⟨.ok stx1, by simp⟩

theorem transferBuilt_legacy (lib : Lib) (b : TxBuild) (to_ : String) (value : Int) (P : Int)
    (hl : b.supportsEIP1559 = false) (hq : b.client.SuggestGasPrice = .ok P) :
    transferBuilt lib b to_ value
      = (.ok (Transaction.legacy
          { Nonce := b.getAndIncrementNonce.1, GasPrice := P + 20, Gas := 200000,
            To := some (transferTarget lib b to_ value).1,
            Value := (transferTarget lib b to_ value).2.1,
            Data := (transferTarget lib b to_ value).2.2 }),
         [Event.suggestGasPrice (.ok P)]) := by
  have hq1 : b.getAndIncrementNonce.2.1.client.SuggestGasPrice = .ok P := hq
  unfold transferBuilt
  rw [hl]
  simp only [Bool.false_eq_true, if_false, TxBuild.buildLegacyTx, hq1]

theorem transferBuilt_dynamicFee (lib : Lib) (b : TxBuild) (to_ : String) (value : Int)
    (header : Header) (B T : Int)
    (hl : b.supportsEIP1559 = true) (hh : b.client.HeaderByNumber none = .ok header)
    (hB : header.BaseFee = some B) (ht : b.client.SuggestGasTipCap = .ok T) :
    transferBuilt lib b to_ value
      = (.ok (Transaction.dynamicFee
          { ChainID := b.signer.ChainID, Nonce := b.getAndIncrementNonce.1, GasTipCap := T,
            GasFeeCap := 2 * B + T, Gas := 200000,
            To := some (transferTarget lib b to_ value).1,
            Value := (transferTarget lib b to_ value).2.1,
            Data := (transferTarget lib b to_ value).2.2 }),
         [Event.headerByNumber (.ok header), Event.suggestGasTipCap (.ok T)]) := by
  have hh1 : b.getAndIncrementNonce.2.1.client.HeaderByNumber none = .ok header := hh
  have ht1 : b.getAndIncrementNonce.2.1.client.SuggestGasTipCap = .ok T := ht
  have hs1 : b.getAndIncrementNonce.2.1.signer = b.signer := rfl
  unfold transferBuilt
  rw [hl]
  simp only [if_true, TxBuild.buildEIP1559Tx, hh1, ht1, hB, hs1, mul_comm B 2]

/-! ## Lemmas on the substring test -/

theorem startsWith_iff (p : List Char) :
    ∀ s : List Char, startsWith s p = true ↔ ∃ post, s = p ++ post := by
  induction p with
  | nil => intro s; simp [startsWith]
  | cons d p ih =>
    intro s
    cases s with
    | nil => simp [startsWith]
    | cons c s =>
      simp only [startsWith, Bool.and_eq_true, beq_iff_eq, ih s, List.cons_append,
        List.cons.injEq]
      constructor
      · rintro ⟨rfl, post, rfl⟩
        exact ⟨post, rfl, rfl⟩
      · rintro ⟨post, rfl, rfl⟩
        exact ⟨rfl, post, rfl⟩

theorem containsChars_iff (p : List Char) :
    ∀ s : List Char, containsChars s p = true ↔ ∃ pre post, s = pre ++ p ++ post := by
  intro s
  induction s with
  | nil =>
    simp only [containsChars, startsWith_iff]
    constructor
    · rintro ⟨post, h⟩
      exact ⟨[], post, h⟩
    · rintro ⟨pre, post, h⟩
      have h1 : pre = [] ∧ p = [] ∧ post = [] := by
        simpa [List.append_eq_nil, and_assoc] using h.symm
      exact ⟨[], by simp [h1.2.1]⟩
  | cons c s ih =>
    simp only [containsChars, Bool.or_eq_true, startsWith_iff, ih]
    constructor
    · rintro (⟨post, h⟩ | ⟨pre, post, h⟩)
      · exact ⟨[], post, h⟩
      · exact ⟨c :: pre, post, by rw [h]; rfl⟩
    · rintro ⟨pre, post, h⟩
      cases pre with
      | nil => exact Or.inl ⟨post, h⟩
      | cons d pre =>
        simp only [List.cons_append, List.cons.injEq] at h
        exact Or.inr ⟨pre, post, h.2⟩

/-- The test of `Transfer` accepts every text that contains the word "nonce" with its letters
in any case. -/
theorem contains_nonce_any_case (pre w post : List Char)
    (hw : w.map toLowerRune = ['n', 'o', 'n', 'c', 'e']) :
    Contains (ToLower ⟨pre ++ w ++ post⟩) "nonce" = true := by
  unfold Contains ToLower
  simp only [List.map_append, hw]
  exact (containsChars_iff _ _).2 ⟨pre.map toLowerRune, post.map toLowerRune, rfl⟩


theorem leftPadBytes_eq (slice : List Nat) (l : Nat) (h : slice.length ≤ l) :
    LeftPadBytes slice l = List.replicate (l - slice.length) 0 ++ slice := by
  unfold LeftPadBytes
  split
  · have h0 : l - slice.length = 0 := by omega
    rw [h0]; rfl
  · rfl

/-! ## Claims on the built transaction -/

/-- C5: for every destination D (the address of the destination string) and every amount V,
when no token contract is configured, every transaction that Transfer builds and hands to
signing has to = D, value = V, empty data, gas limit 200000 and, as sequence number, the
value returned by the allocation of this call; and such a transaction is built whenever the
fee queries of the configured scheme succeed. -/
theorem transfer_native (lib : Lib) (b : TxBuild) (to_ : String) (value : Int)
    (hn : b.tokenAddress = none) :
    (∀ tx res, Event.signTx tx res ∈ (b.Transfer lib to_ value).2.2 →
      tx.To = some (lib.HexToAddress to_) ∧ tx.Value = value ∧ tx.Data = []
      ∧ tx.Gas = 200000 ∧ tx.Nonce = b.getAndIncrementNonce.1)
    ∧ (∀ P, b.supportsEIP1559 = false → b.client.SuggestGasPrice = .ok P →
        ∃ res, Event.signTx (Transaction.legacy
            { Nonce := b.getAndIncrementNonce.1, GasPrice := P + 20, Gas := 200000,
              To := some (lib.HexToAddress to_), Value := value, Data := [] }) res
          ∈ (b.Transfer lib to_ value).2.2)
    ∧ (∀ header B T, b.supportsEIP1559 = true → b.client.HeaderByNumber none = .ok header →
        header.BaseFee = some B → b.client.SuggestGasTipCap = .ok T →
        ∃ res, Event.signTx (Transaction.dynamicFee
            { ChainID := b.signer.ChainID, Nonce := b.getAndIncrementNonce.1, GasTipCap := T,
              GasFeeCap := 2 * B + T, Gas := 200000, To := some (lib.HexToAddress to_),
              Value := value, Data := [] }) res
          ∈ (b.Transfer lib to_ value).2.2) := by
  have ht : transferTarget lib b to_ value = (lib.HexToAddress to_, value, []) := by
    simp only [transferTarget, hn]
  refine ⟨?_, ?_, ?_⟩
  · intro tx res hs
    obtain ⟨ev1, hb⟩ := sign_mem_transfer lib b to_ value tx res hs
    have hf := transferBuilt_fields lib b to_ value tx ev1 hb
    rw [ht] at hf
    exact ⟨hf.2.2.1, hf.2.2.2.1, hf.2.2.2.2, hf.2.1, hf.1⟩
  · intro P hl hq
    have hb := transferBuilt_legacy lib b to_ value P hl hq
    rw [ht] at hb
    exact transfer_signs_built lib b to_ value _ _ hb
  · intro header B T hl hh hB hT
    have hb := transferBuilt_dynamicFee lib b to_ value header B T hl hh hB hT
    rw [ht] at hb
    exact transfer_signs_built lib b to_ value _ _ hb

/-- Witness of C5: a native transfer of 30 by the sample builder with counter 5. -/
theorem transfer_native_witness :
    (sampleBuilder (sampleClient (.ok 0) none) 5 false none).tokenAddress = none
    ∧ ∃ res, Event.signTx (Transaction.legacy
          { Nonce := 5, GasPrice := 1020, Gas := 200000, To := some (sampleAddress 0xbb),
            Value := 30, Data := [] }) res
        ∈ ((sampleBuilder (sampleClient (.ok 0) none) 5 false none).Transfer
            sampleLib "0xbb" 30).2.2 :=
  ⟨rfl, (transfer_native sampleLib (sampleBuilder (sampleClient (.ok 0) none) 5 false none)
    "0xbb" 30 rfl).2.1 1000 rfl rfl⟩

theorem natAbs_lt_of_range (v : Int) (h0 : 0 ≤ v) (hv : v < 2 ^ 256) :
    v.natAbs < 2 ^ 256 := by
  have h1 : ((v.natAbs : Nat) : Int) = v := Int.natAbs_of_nonneg h0
  have h2 : ((v.natAbs : Nat) : Int) < ((2 ^ 256 : Nat) : Int) := by
    rw [h1]; exact_mod_cast hv
  exact_mod_cast h2

/-- C4, as amended: for every destination D, every token contract C configured and every
amount V with 0 ≤ V < 2^256, every transaction that Transfer builds and hands to signing
has to = C, value = 0 and data = buildERC20TransferData(D, V), which is the 4 bytes
a9 05 9c bb, then the 32-byte left-padded encoding of D (12 zero bytes and the 20 bytes of
D), then the 32-byte left-padded big-endian encoding of V: 68 bytes in total, the last 32
decoding to V; and such a transaction is built whenever the fee queries of the configured
scheme succeed. -/
theorem transfer_token (lib : Lib) (b : TxBuild) (to_ : String) (value : Int) (C : Address)
    (hC : b.tokenAddress = some C) (h0 : 0 ≤ value) (hv : value < 2 ^ 256) :
    (∀ tx res, Event.signTx tx res ∈ (b.Transfer lib to_ value).2.2 →
      tx.To = some C ∧ tx.Value = 0
      ∧ tx.Data = buildERC20TransferData (lib.HexToAddress to_) value
      ∧ tx.Data = [0xa9, 0x05, 0x9c, 0xbb]
          ++ (List.replicate 12 0 ++ (lib.HexToAddress to_).bytes)
          ++ (List.replicate (32 - (bigIntBytes value).length) 0 ++ bigIntBytes value)
      ∧ tx.Data.length = 68
      ∧ ((Nat.ofDigits 256 (tx.Data.drop 36).reverse : Nat) : Int) = value)
    ∧ (∀ P, b.supportsEIP1559 = false → b.client.SuggestGasPrice = .ok P →
        ∃ res, Event.signTx (Transaction.legacy
            { Nonce := b.getAndIncrementNonce.1, GasPrice := P + 20, Gas := 200000,
              To := some C, Value := 0,
              Data := buildERC20TransferData (lib.HexToAddress to_) value }) res
          ∈ (b.Transfer lib to_ value).2.2)
    ∧ (∀ header B T, b.supportsEIP1559 = true → b.client.HeaderByNumber none = .ok header →
        header.BaseFee = some B → b.client.SuggestGasTipCap = .ok T →
        ∃ res, Event.signTx (Transaction.dynamicFee
            { ChainID := b.signer.ChainID, Nonce := b.getAndIncrementNonce.1, GasTipCap := T,
              GasFeeCap := 2 * B + T, Gas := 200000, To := some C, Value := 0,
              Data := buildERC20TransferData (lib.HexToAddress to_) value }) res
          ∈ (b.Transfer lib to_ value).2.2) := by
  have ht : transferTarget lib b to_ value
      = (C, 0, buildERC20TransferData (lib.HexToAddress to_) value) := by
    simp only [transferTarget, hC]
  have hn := natAbs_lt_of_range value h0 hv
  have hlen := bigIntBytes_length_le value hn
  refine ⟨?_, ?_, ?_⟩
  · intro tx res hs
    obtain ⟨ev1, hb⟩ := sign_mem_transfer lib b to_ value tx res hs
    have hf := transferBuilt_fields lib b to_ value tx ev1 hb
    rw [ht] at hf
    have hd : tx.Data = buildERC20TransferData (lib.HexToAddress to_) value := hf.2.2.2.2
    refine ⟨hf.2.2.1, hf.2.2.2.1, hd, ?_, ?_, ?_⟩
    · rw [hd, buildERC20TransferData_eq, leftPadBytes_eq _ 32 hlen]
    · rw [hd]; exact buildERC20TransferData_length _ _ hn
    · rw [hd, buildERC20TransferData_eq,
        List.drop_left' (by simp [(lib.HexToAddress to_).size_eq]),
        leftPadBytes_decode value 32]
      exact Int.natAbs_of_nonneg h0
  · intro P hl hq
    have hb := transferBuilt_legacy lib b to_ value P hl hq
    rw [ht] at hb
    exact transfer_signs_built lib b to_ value _ _ hb
  · intro header B T hl hh hB hT
    have hb := transferBuilt_dynamicFee lib b to_ value header B T hl hh hB hT
    rw [ht] at hb
    exact transfer_signs_built lib b to_ value _ _ hb

/-- Witness of C4 as amended: a token transfer of 1000 by the sample builder, under the
legacy scheme and under the base-fee scheme. -/
theorem transfer_token_witness :
    ((sampleBuilder (sampleClient (.ok 0) none) 5 false
        (some (sampleAddress 0xcc))).tokenAddress = some (sampleAddress 0xcc)
      ∧ (0 : Int) ≤ 1000 ∧ (1000 : Int) < 2 ^ 256)
    ∧ (∃ res, Event.signTx (Transaction.legacy
          { Nonce := 5, GasPrice := 1020, Gas := 200000, To := some (sampleAddress 0xcc),
            Value := 0, Data := buildERC20TransferData (sampleAddress 0xbb) 1000 }) res
        ∈ ((sampleBuilder (sampleClient (.ok 0) none) 5 false
            (some (sampleAddress 0xcc))).Transfer sampleLib "0xbb" 1000).2.2)
    ∧ (∃ res, Event.signTx (Transaction.dynamicFee
          { ChainID := 84532, Nonce := 5, GasTipCap := 3, GasFeeCap := 17, Gas := 200000,
            To := some (sampleAddress 0xcc), Value := 0,
            Data := buildERC20TransferData (sampleAddress 0xbb) 1000 }) res
        ∈ ((sampleBuilder (sampleClient (.ok 0) none) 5 true
            (some (sampleAddress 0xcc))).Transfer sampleLib "0xbb" 1000).2.2) :=
  ⟨⟨rfl, by decide, by norm_num⟩,
    (transfer_token sampleLib
      (sampleBuilder (sampleClient (.ok 0) none) 5 false (some (sampleAddress 0xcc)))
      "0xbb" 1000 (sampleAddress 0xcc) rfl (by decide) (by norm_num)).2.1 1000 rfl rfl,
    (transfer_token sampleLib
      (sampleBuilder (sampleClient (.ok 0) none) 5 true (some (sampleAddress 0xcc)))
      "0xbb" 1000 (sampleAddress 0xcc) rfl (by decide) (by norm_num)).2.2
      { BaseFee := some 7 } 7 3 rfl rfl rfl rfl⟩

/-- Counterexample to C4 as stated: with a token contract configured and the amount 2^256,
the transaction built by Transfer carries 69 bytes of data, not 68 (the amount takes 33
bytes, which LeftPadBytes leaves as they are). -/
theorem token_payload_overlong :
    ∃ tx res, Event.signTx tx res
        ∈ ((sampleBuilder (sampleClient (.ok 0) none) 5 false
            (some (sampleAddress 0xcc))).Transfer sampleLib "0xbb" (2 ^ 256)).2.2
      ∧ tx.To = some (sampleAddress 0xcc)
      ∧ tx.Data = buildERC20TransferData (sampleAddress 0xbb) (2 ^ 256)
      ∧ tx.Data.length = 69
      ∧ tx.Data.length ≠ 68 := by
  obtain ⟨res, hres⟩ := transfer_signs_built sampleLib
    (sampleBuilder (sampleClient (.ok 0) none) 5 false (some (sampleAddress 0xcc)))
    "0xbb" (2 ^ 256) _ _
    (transferBuilt_legacy sampleLib
      (sampleBuilder (sampleClient (.ok 0) none) 5 false (some (sampleAddress 0xcc)))
      "0xbb" (2 ^ 256) 1000 rfl rfl)
  have hlen : (buildERC20TransferData (sampleAddress 0xbb) (2 ^ 256)).length = 69 :=
    buildERC20TransferData_length_long _ _ 33 bigIntBytes_length_pow (by decide)
  refine ⟨_, res, hres, rfl, rfl, ?_, ?_⟩
  · exact hlen
  · intro h
    have h2 : (buildERC20TransferData (sampleAddress 0xbb) (2 ^ 256)).length = 68 := h
    rw [hlen] at h2
    exact absurd h2 (by decide)


/-- Witness of C7: the endpoint rejects the submission with "insufficient funds". -/
theorem transfer_other_failure_witness :
    (Event.sendTransaction (sampleSigned 9) (some "insufficient funds")
        ∈ ((sampleBuilder (sampleClient (.ok 4) (some "insufficient funds")) 9 false
            none).Transfer sampleLib "0xbb" 30).2.2
      ∧ Contains (ToLower "insufficient funds") "nonce" = false)
    ∧ ((sampleBuilder (sampleClient (.ok 4) (some "insufficient funds")) 9 false
          none).Transfer sampleLib "0xbb" 30).1
        = .returned zeroHash (some "insufficient funds")
    ∧ ((sampleBuilder (sampleClient (.ok 4) (some "insufficient funds")) 9 false
          none).Transfer sampleLib "0xbb" 30).2.1.nonce = 10 := by
  have hmem : Event.sendTransaction (sampleSigned 9) (some "insufficient funds")
      ∈ ((sampleBuilder (sampleClient (.ok 4) (some "insufficient funds")) 9 false
          none).Transfer sampleLib "0xbb" 30).2.2 := by
    rw [show ((sampleBuilder (sampleClient (.ok 4) (some "insufficient funds")) 9 false
          none).Transfer sampleLib "0xbb" 30).2.2
        = [Event.atomicAdd 9, Event.suggestGasPrice (.ok 1000),
           Event.logInfo "Faucet txn details",
           Event.signTx (sampleUnsigned 9) (.ok (sampleSigned 9)),
           Event.sendTransaction (sampleSigned 9) (some "insufficient funds")] from rfl]
    simp
  have h := transfer_other_failure sampleLib
    (sampleBuilder (sampleClient (.ok 4) (some "insufficient funds")) 9 false none)
    "0xbb" 30 (sampleSigned 9) "insufficient funds" hmem (by decide)
  exact ⟨⟨hmem, by decide⟩, h.1, h.2.2.2.2.2⟩

/-- Witness of C6: the endpoint rejects the submission with "Nonce too low" and then answers
4 to the pending-nonce query. -/
theorem transfer_nonce_failure_witness :
    (Event.sendTransaction (sampleSigned 9) (some "Nonce too low")
        ∈ ((sampleBuilder (sampleClient (.ok 4) (some "Nonce too low")) 9 false
            none).Transfer sampleLib "0xbb" 30).2.2
      ∧ Contains (ToLower "Nonce too low") "nonce" = true)
    ∧ ((sampleBuilder (sampleClient (.ok 4) (some "Nonce too low")) 9 false
          none).Transfer sampleLib "0xbb" 30).1
        = .returned zeroHash (some "Nonce too low")
    ∧ ((sampleBuilder (sampleClient (.ok 4) (some "Nonce too low")) 9 false
          none).Transfer sampleLib "0xbb" 30).2.1.nonce = 4 := by
  have hmem : Event.sendTransaction (sampleSigned 9) (some "Nonce too low")
      ∈ ((sampleBuilder (sampleClient (.ok 4) (some "Nonce too low")) 9 false
          none).Transfer sampleLib "0xbb" 30).2.2 := by
    rw [show ((sampleBuilder (sampleClient (.ok 4) (some "Nonce too low")) 9 false
          none).Transfer sampleLib "0xbb" 30).2.2
        = [Event.atomicAdd 9, Event.suggestGasPrice (.ok 1000),
           Event.logInfo "Faucet txn details",
           Event.signTx (sampleUnsigned 9) (.ok (sampleSigned 9)),
           Event.sendTransaction (sampleSigned 9) (some "Nonce too low"),
           Event.pendingNonceAt (sampleAddress 0xaa) (.ok 4), Event.atomicStore 4] from rfl]
    simp
  have h := transfer_nonce_failure sampleLib
    (sampleBuilder (sampleClient (.ok 4) (some "Nonce too low")) 9 false none)
    "0xbb" 30 (sampleSigned 9) "Nonce too low" hmem (by decide)
  exact ⟨⟨hmem, by decide⟩, h.1, (h.2.2.2.1 4 rfl).1⟩

/-! ## Claim on the allocation made by `Transfer` -/

/-- C10, as amended: every Transfer call (counter c, a uint64) allocates exactly once, as its
first effect and so before any endpoint query; unless a submission failed with the
sequencing indicator, the builder afterwards is the one right after the allocation, with
counter (c + 1) mod 2^64, which is c + 1 when c is below 2^64 - 1, and no pending-nonce
query or store happened; every transaction built carries c as its sequence number; and after
a call that made no submission attempt, later allocations that do not wrap the counter never
hand out c again. -/
theorem transfer_allocates_once (lib : Lib) (b : TxBuild) (to_ : String) (value : Int)
    (hc : b.nonce < UINT64_MOD) :
    (∃ rest, (b.Transfer lib to_ value).2.2 = Event.atomicAdd b.nonce :: rest
      ∧ rest.countP Event.isAtomicAdd = 0)
    ∧ ((∃ stx e, Event.sendTransaction stx (some e) ∈ (b.Transfer lib to_ value).2.2
          ∧ Contains (ToLower e) "nonce" = true)
      ∨ ((b.Transfer lib to_ value).2.1 = b.getAndIncrementNonce.2.1
          ∧ (b.Transfer lib to_ value).2.1.nonce = (b.nonce + 1) % UINT64_MOD
          ∧ (b.nonce + 1 < UINT64_MOD → (b.Transfer lib to_ value).2.1.nonce = b.nonce + 1)
          ∧ (b.Transfer lib to_ value).2.2.countP Event.isPendingNonceAt = 0
          ∧ (b.Transfer lib to_ value).2.2.countP Event.isAtomicStore = 0))
    ∧ (∀ tx res, Event.signTx tx res ∈ (b.Transfer lib to_ value).2.2 → tx.Nonce = b.nonce)
    ∧ ((b.Transfer lib to_ value).2.2.countP Event.isSendTransaction = 0 →
        ∀ sched : List Nat,
          (b.Transfer lib to_ value).2.1.nonce + sched.length < UINT64_MOD →
          ∀ p ∈ (allocateAll sched (b.Transfer lib to_ value).2.1).1, p.2 ≠ b.nonce) := by
  have hev := transferBuilt_events lib b to_ value
  have hmod : b.nonce + 1 < UINT64_MOD → (b.nonce + 1) % UINT64_MOD = b.nonce + 1 :=
    fun h => Nat.mod_eq_of_lt h
  have hlater : ∀ sched : List Nat,
      b.getAndIncrementNonce.2.1.nonce + sched.length < UINT64_MOD →
      ∀ p ∈ (allocateAll sched b.getAndIncrementNonce.2.1).1, p.2 ≠ b.nonce := by
    intro sched hs p hp
    obtain ⟨h1, _⟩ := allocateAll_spec sched b.getAndIncrementNonce.2.1 hs
    rw [h1] at hp
    have hp2 : p.2 ∈ List.range' b.getAndIncrementNonce.2.1.nonce sched.length := by
      have := List.of_mem_zip (show (p.1, p.2) ∈ _ from hp)
      exact this.2
    rw [List.mem_range'_1] at hp2
    rw [getAndIncrementNonce_nonce] at hp2 hs
    by_cases hw : b.nonce + 1 < UINT64_MOD
    · rw [Nat.mod_eq_of_lt hw] at hp2
      omega
    · have hz : (b.nonce + 1) % UINT64_MOD = 0 := by
        have : b.nonce + 1 = UINT64_MOD := by omega
        rw [this]; exact Nat.mod_self _
      rw [hz] at hp2 hs
      omega
  refine ⟨?_, ?_, ?_, ?_⟩
  · rcases transfer_outcomes lib b to_ value with
      ⟨e1, ev1, hb, hT⟩ | ⟨ev1, hb, hT⟩ | ⟨utx, ev1, e1, hb, hsg, hT⟩
      | ⟨utx, ev1, stx1, hb, hsg, hsd, hT⟩ | ⟨utx, ev1, stx1, e1, hb, hsg, hsd, hc1, hT⟩
      | ⟨utx, ev1, stx1, e1, hb, hsg, hsd, hc1, hT⟩
    all_goals
      rw [hb] at hev
      obtain ⟨_, _, _, c4⟩ := feeQueries_counts ev1 hev
      rw [hT]
      refine ⟨_, rfl, ?_⟩
      simp [c4, Event.isAtomicAdd, (refreshNonce_counts b.getAndIncrementNonce.2.1).2.2]
  · rcases transfer_outcomes lib b to_ value with
      ⟨e1, ev1, hb, hT⟩ | ⟨ev1, hb, hT⟩ | ⟨utx, ev1, e1, hb, hsg, hT⟩
      | ⟨utx, ev1, stx1, hb, hsg, hsd, hT⟩ | ⟨utx, ev1, stx1, e1, hb, hsg, hsd, hc1, hT⟩
      | ⟨utx, ev1, stx1, e1, hb, hsg, hsd, hc1, hT⟩
    all_goals
      rw [hb] at hev
      obtain ⟨c1, c2, _, _⟩ := feeQueries_counts ev1 hev
      rw [hT]
    · exact Or.inr ⟨rfl, rfl, hmod, by simp [c1, Event.isPendingNonceAt],
        by simp [c2, Event.isAtomicStore]⟩
    · exact Or.inr ⟨rfl, rfl, hmod, by simp [c1, Event.isPendingNonceAt],
        by simp [c2, Event.isAtomicStore]⟩
    · exact Or.inr ⟨rfl, rfl, hmod, by simp [c1, Event.isPendingNonceAt],
        by simp [c2, Event.isAtomicStore]⟩
    · exact Or.inr ⟨rfl, rfl, hmod, by simp [c1, Event.isPendingNonceAt],
        by simp [c2, Event.isAtomicStore]⟩
    · exact Or.inr ⟨rfl, rfl, hmod, by simp [c1, Event.isPendingNonceAt],
        by simp [c2, Event.isAtomicStore]⟩
    · exact Or.inl ⟨stx1, e1, by simp, hc1⟩
  · intro tx res hs
    obtain ⟨ev1, hb⟩ := sign_mem_transfer lib b to_ value tx res hs
    rw [(transferBuilt_fields lib b to_ value tx ev1 hb).1]
    exact getAndIncrementNonce_fst b hc
  · rcases transfer_outcomes lib b to_ value with
      ⟨e1, ev1, hb, hT⟩ | ⟨ev1, hb, hT⟩ | ⟨utx, ev1, e1, hb, hsg, hT⟩
      | ⟨utx, ev1, stx1, hb, hsg, hsd, hT⟩ | ⟨utx, ev1, stx1, e1, hb, hsg, hsd, hc1, hT⟩
      | ⟨utx, ev1, stx1, e1, hb, hsg, hsd, hc1, hT⟩
    all_goals
      rw [hT]
    · intro _; exact hlater
    · intro _; exact hlater
    · intro _; exact hlater
    · intro h; simp [Event.isSendTransaction] at h
    · intro h; simp [Event.isSendTransaction] at h
    · intro h; simp [Event.isSendTransaction] at h

/-- Witness of C10 as amended: the gas-price query fails; the counter goes from 5 to 6 and
the next two allocations return 6 and 7. -/
theorem transfer_allocates_once_witness :
    (sampleBuilder { sampleClient (.ok 0) none with SuggestGasPrice := .error "timeout" }
        5 false none).nonce < UINT64_MOD
    ∧ ((sampleBuilder { sampleClient (.ok 0) none with SuggestGasPrice := .error "timeout" }
          5 false none).Transfer sampleLib "0xbb" 30).1
        = .returned zeroHash (some "timeout")
    ∧ ((sampleBuilder { sampleClient (.ok 0) none with SuggestGasPrice := .error "timeout" }
          5 false none).Transfer sampleLib "0xbb" 30).2.1.nonce = 6
    ∧ ∃ rest, ((sampleBuilder
          { sampleClient (.ok 0) none with SuggestGasPrice := .error "timeout" }
          5 false none).Transfer sampleLib "0xbb" 30).2.2 = Event.atomicAdd 5 :: rest
        ∧ rest.countP Event.isAtomicAdd = 0 :=
  ⟨by decide, rfl, rfl,
    (transfer_allocates_once sampleLib
      (sampleBuilder { sampleClient (.ok 0) none with SuggestGasPrice := .error "timeout" }
        5 false none) "0xbb" 30 (by decide)).1⟩

/-- Counterexample to C10 as stated: with the counter at 2^64 - 1 a successful Transfer, which
triggers no resynchronization, leaves the counter at 0, not at the previous value plus one. -/
theorem transfer_counter_wraps :
    ((sampleBuilder (sampleClient (.ok 0) none) (2 ^ 64 - 1) false none).Transfer
        sampleLib "0xbb" 30).1 = .returned (List.replicate 32 1) none
    ∧ ((sampleBuilder (sampleClient (.ok 0) none) (2 ^ 64 - 1) false none).Transfer
        sampleLib "0xbb" 30).2.2
      = [Event.atomicAdd (2 ^ 64 - 1), Event.suggestGasPrice (.ok 1000),
         Event.logInfo "Faucet txn details",
         Event.signTx (sampleUnsigned (2 ^ 64 - 1)) (.ok (sampleSigned (2 ^ 64 - 1))),
         Event.sendTransaction (sampleSigned (2 ^ 64 - 1)) none]
    ∧ ((sampleBuilder (sampleClient (.ok 0) none) (2 ^ 64 - 1) false none).Transfer
        sampleLib "0xbb" 30).2.1.nonce = 0
    ∧ ((sampleBuilder (sampleClient (.ok 0) none) (2 ^ 64 - 1) false none).Transfer
        sampleLib "0xbb" 30).2.1.nonce
      ≠ (sampleBuilder (sampleClient (.ok 0) none) (2 ^ 64 - 1) false none).nonce + 1 :=
  ⟨rfl, rfl, rfl, by decide⟩

end Chain
